import Mathlib

/-!
Verification of the state-synchronization and eligibility-reconciliation engine
of the mining-Master client, shallowly embedded from the TypeScript source.

The embedding covers:
* `useExpeditions.fetchStatuses` (the per-cycle staked-miner read with fallback,
  the sequential per-miner read loop, the meal-eligibility reconciliation and
  its mismatch diagnostic, the operation-counter commit guard, the cooldown and
  debounce gates, and the derived aggregates);
* `StakingSyncService` (`getStakingData`, `manualSync`, `estimateCurrentRewards`);
* `useMealStatuses.fetchStakedMiners`;
* the stubbed `useFeedingStatus` hook.

Remote reads are modelled as explicit `ReadOutcome` values (the code uses
exceptions caught by try/catch); JavaScript numbers used for token counts,
ids and timestamps are modelled as `Nat`, and the reward arithmetic of
`estimateCurrentRewards` (JavaScript floating point) is idealized as exact
rational arithmetic over `ℚ`.
-/

namespace MiningMaster

/-- Outcome of a single remote contract read: the code wraps each call in
try/catch, which we model as an explicit sum. -/
inductive ReadOutcome (α : Type) where
  | ok (v : α) : ReadOutcome α
  | err : ReadOutcome α
deriving Repr, DecidableEq

/-- Constants from useExpeditions (part_002). -/
def REFETCH_COOLDOWN_MS : Nat := 5000

/-- Debounce window for fetch calls in useExpeditions. -/
def FETCH_DEBOUNCE_MS : Nat := 300

/-- Default meal duration used when the cooldown read fails. -/
def MEAL_DURATION_SECONDS : Nat := 6 * 60 * 60

/-- Minimum time between syncs in StakingSyncService (part_007). -/
def MIN_SYNC_INTERVAL : Nat := 30000

/-- Fed-status record nested in ExpeditionStatus (part_002 lines 34-39). -/
structure FedStatus where
  mealId : Nat
  timestamp : Nat
  isActive : Bool
  expiryTime : Nat
deriving Repr, DecidableEq

/-- ExpeditionStatus interface from useExpeditions (part_002 lines 27-40). -/
structure ExpeditionStatus where
  minerId : Nat
  onExpedition : Bool
  startTime : Nat
  endTime : Nat
  completed : Bool
  eligibleForNewExpedition : Bool
  fedStatus : FedStatus
deriving Repr, DecidableEq

/-- Raw fields returned by miningContract.expeditions(minerId). -/
structure ExpeditionData where
  startTime : Nat
  endTime : Nat
  completed : Bool
deriving Repr, DecidableEq

/-- Raw fields returned by foodContract.getMinerMealStatus(minerId). -/
structure MealInfo where
  mealId : Nat
  timestamp : Nat
deriving Repr, DecidableEq

/-- The two per-miner remote reads performed inside the loop body. -/
structure MinerReads where
  expedition : ReadOutcome ExpeditionData
  meal : ReadOutcome MealInfo
deriving Repr, DecidableEq

/-- Diagnostic record logged when the contract-exact eligibility and the
UI (expiry-window) eligibility disagree (part_002 lines 270-277). -/
structure MismatchDiag where
  minerId : Nat
  contractEligible : Bool
  uiEligible : Bool
  mealTimestamp : Nat
  expiryTime : Nat
  currentTime : Nat
deriving Repr, DecidableEq

/-- Per-miner loop body of useExpeditions.fetchStatuses (part_002 lines
212-351), as a total function of the two read outcomes.  On a failed
expedition read the stub values (0, 0, false) are kept; on a failed meal
read the defaults (mealId 0, timestamp 0, not fed) are kept.  The second
component is the mismatch diagnostic emitted at lines 270-277, present
exactly when the contract check (mealTimestamp > 0) and the expiry check
(mealTimestamp + cooldown > now) disagree. -/
def processMiner (minerId : Nat) (reads : MinerReads)
    (mealCooldownSecs now : Nat) : ExpeditionStatus × Option MismatchDiag :=
  let (startTimeValue, endTimeValue, completedValue) :=
    match reads.expedition with
    | .ok d => (d.startTime, d.endTime, d.completed)
    | .err => (0, 0, false)
  let isOnExpedition :=
    decide (0 < startTimeValue) && decide (0 < endTimeValue) && !completedValue
  let (mealId, mealTimestamp, fed, diag) :=
    match reads.meal with
    | .ok m =>
      let mealEverConsumed := decide (0 < m.timestamp)
      let mealExpiryTime := m.timestamp + mealCooldownSecs
      let mealActiveByExpiry := decide (now < mealExpiryTime)
      let d :=
        if mealEverConsumed != mealActiveByExpiry then
          some { minerId := minerId, contractEligible := mealEverConsumed,
                 uiEligible := mealActiveByExpiry, mealTimestamp := m.timestamp,
                 expiryTime := mealExpiryTime, currentTime := now }
        else none
      (m.mealId, m.timestamp, mealEverConsumed, d)
    | .err => (0, 0, false, none)
  let mealExpiryTime := mealTimestamp + mealCooldownSecs
  let isMealActive := fed
  let eligibleForNewExpedition := !isOnExpedition && isMealActive
  ({ minerId := minerId, onExpedition := isOnExpedition,
     startTime := startTimeValue, endTime := endTimeValue,
     completed := completedValue,
     eligibleForNewExpedition := eligibleForNewExpedition,
     fedStatus := { mealId := mealId, timestamp := mealTimestamp,
                    isActive := isMealActive, expiryTime := mealExpiryTime } },
   diag)

/-- Sequential per-miner loop of fetchStatuses (part_002 lines 205-356):
every miner in the staked set is processed, each with its own caught
read outcomes, and the produced status list collects them in order. -/
def processCycle (miners : List Nat) (reads : Nat → MinerReads)
    (mealCooldownSecs now : Nat) : List ExpeditionStatus :=
  miners.map (fun id => (processMiner id (reads id) mealCooldownSecs now).1)

/-- Staked-miner resolution of fetchStatuses (part_002 lines 179-199) as it
appears inside one invocation of the memoized closure: captured is the
closure-captured value of the lastValidStakedMiners state that the
error-path read at line 197 sees, and live is the current value of that
state cell, which only the setter calls touch.  On a successful read the
fresh list is used and, when non-empty, stored in the live cache; on a read
error the captured value is used and the live cache is left untouched.
Returns (list used this cycle, live cache value afterwards). -/
def resolveStakedMiners (o : ReadOutcome (List Nat))
    (captured live : List Nat) : List Nat × List Nat :=
  match o with
  | .ok ids => (ids, if 0 < ids.length then ids else live)
  | .err => (captured, live)

/-- Initial value of the lastValidStakedMiners state cell (part_002
line 58). -/
def initialLastValidStakedMiners : List Nat := []

/-- Staked-miner resolution as the program actually executes it:
fetchStatuses is memoized by useCallback with an empty dependency array
(part_002 lines 80 and 401), so the closure-captured lastValidStakedMiners
is permanently the initial empty list; every cycle therefore resolves with
captured fixed at that frozen initial value, whatever the live cache
holds. -/
def resolveStakedMinersFrozen (o : ReadOutcome (List Nat))
    (live : List Nat) : List Nat × List Nat :=
  resolveStakedMiners o initialLastValidStakedMiners live

/-- Aggregate allMinersEligible (part_002 lines 462-465): false on an empty
status list, otherwise the conjunction over all statuses. -/
def allMinersEligible (statuses : List ExpeditionStatus) : Bool :=
  if statuses.length = 0 then false
  else statuses.all (fun s => s.eligibleForNewExpedition)

/-- Aggregate allMinersFed (part_002 lines 469-474): false on an empty status
list, otherwise the conjunction of fedStatus.isActive over all statuses. -/
def allMinersFed (statuses : List ExpeditionStatus) : Bool :=
  if statuses.length = 0 then false
  else statuses.all (fun s => s.fedStatus.isActive)

/-- MinerFeedingStatus interface from useFeedingStatus.ts. -/
structure MinerFeedingStatus where
  minerId : Nat
  mealId : Nat
  timestamp : Nat
  fed : Bool
deriving Repr, DecidableEq

/-- Return value of the useFeedingStatus hook. -/
structure FeedingStatusView where
  statuses : List MinerFeedingStatus
  allMinersFed : Bool
  loading : Bool
deriving Repr, DecidableEq

/-- The useFeedingStatus hook body (useFeedingStatus.ts lines 18-20): it is a
stub returning an empty status list with allMinersFed fixed to true. -/
def useFeedingStatus : FeedingStatusView :=
  { statuses := [], allMinersFed := true, loading := false }

/-- Outcome of the three remote reads performed by
StakingSyncService.getStakingData; the code runs them inside one try block,
so any failure takes the single catch path. -/
inductive GetStakingOutcome where
  | ok (stakedMiners : List Nat) (pendingRewards : ℚ) (gemsPerSecond : ℚ)
  | err
deriving Repr, DecidableEq

/-- StakingData interface from StakingSyncService (part_007 lines 15-22),
with the decimal-string reward fields idealized as rationals. -/
structure StakingData where
  stakedMiners : List Nat
  stakedMinerCount : Nat
  pendingRewards : ℚ
  gemsPerSecond : ℚ
  lastSyncTimestamp : Nat
  userAddress : String

/-- StakingSyncService.getStakingData (part_007 lines 105-153): on success the
count is taken from the length of the fetched miner list; on any error the
catch block returns the fallback record with an empty miner list and zeroed
reward fields. -/
def getStakingData (walletAddress : String) (o : GetStakingOutcome)
    (now : Nat) : StakingData :=
  match o with
  | .ok miners rewards rate =>
      { stakedMiners := miners, stakedMinerCount := miners.length,
        pendingRewards := rewards, gemsPerSecond := rate,
        lastSyncTimestamp := now, userAddress := walletAddress }
  | .err =>
      { stakedMiners := [], stakedMinerCount := 0, pendingRewards := 0,
        gemsPerSecond := 0, lastSyncTimestamp := now,
        userAddress := walletAddress }

/-- StakingSyncService.estimateCurrentRewards (part_007 lines 270-289), with
JavaScript number arithmetic idealized over ℚ.  Timestamps are in
milliseconds, as produced by Date.now(); the division by 1000 converts the
elapsed time to seconds. -/
def estimateCurrentRewards (baseRewards gemsPerSecond : ℚ) (minerCount : Nat)
    (nowMs lastUpdateTime : ℚ) : ℚ :=
  if minerCount = 0 then baseRewards
  else
    let elapsed := (nowMs - lastUpdateTime) / 1000
    let rate := gemsPerSecond
    let additionalRewards := rate * minerCount * elapsed
    baseRewards + additionalRewards

/-- Cooldown gate of StakingSyncService.manualSync (part_007 lines 237-259):
the sync body runs only when at least MIN_SYNC_INTERVAL has elapsed since
the last sync. -/
def manualSyncRuns (now lastSyncTimestamp : Nat) : Bool :=
  decide (MIN_SYNC_INTERVAL ≤ now - lastSyncTimestamp)

/-- Entry gate of the debounced fetchStatuses body (part_002 lines 92-121):
no wallet connection, a fetch already in flight, or (for a non-forced
trigger) an elapsed time below the cooldown each cause the body to return
without performing a read; the force flag bypasses only the cooldown check. -/
def shouldStartFetch (force walletConnected fetchInProgress : Bool)
    (now lastFetchTime : Nat) : Bool :=
  if !walletConnected then false
  else if fetchInProgress then false
  else if !force && decide (now - lastFetchTime < REFETCH_COOLDOWN_MS) then
    false
  else true

/-- Shared state touched by a fetch cycle of useExpeditions: the global
operation counter, the React state cells, and the in-flight flag. -/
structure SyncState where
  counter : Nat
  statuses : List ExpeditionStatus
  initialized : Bool
  error : Option String
  loading : Bool
  lastValidStakedMiners : List Nat
  cooldownTime : Nat
  fetchInProgress : Bool
deriving Repr, DecidableEq

/-- Completion step of a successful fetch cycle (part_002 lines 358-392):
the commit block runs only when the cycle token opId still equals the
global operation counter; the finally block clears the loading flag under
the same check and unconditionally clears the in-flight flag.  A stale
cycle discards its results. -/
def commitCycle (opId : Nat) (newStatuses : List ExpeditionStatus)
    (stakedMiners : List Nat) (now : Nat) (st : SyncState) : SyncState :=
  let st1 :=
    if opId = st.counter then
      { st with initialized := true,
                lastValidStakedMiners :=
                  if 0 < stakedMiners.length then stakedMiners
                  else st.lastValidStakedMiners,
                statuses := newStatuses,
                cooldownTime := now + REFETCH_COOLDOWN_MS }
    else st
  let st2 := if opId = st1.counter then { st1 with loading := false } else st1
  { st2 with fetchInProgress := false }

/-- Completion step of a failed fetch cycle (part_002 lines 378-392): the
catch block records the error only when the cycle token is still current,
and the finally block behaves as in commitCycle. -/
def failCycle (opId : Nat) (e : String) (st : SyncState) : SyncState :=
  let st1 := if opId = st.counter then { st with error := some e } else st
  let st2 := if opId = st1.counter then { st1 with loading := false } else st1
  { st2 with fetchInProgress := false }

/-- Checks that every trigger in an ascending burst of trigger times arrives
strictly within the debounce window of the previous one. -/
def burstWithinDebounce : List Nat → Bool
  | [] => true
  | [_] => true
  | t :: t2 :: rest =>
      decide (t2 < t + FETCH_DEBOUNCE_MS) && burstWithinDebounce (t2 :: rest)

/-- Number of debounced fetch bodies that actually run for an ascending list
of trigger times (part_002 lines 80-88 and 397): each trigger cancels any
pending scheduled body and schedules a fresh one at trigger time plus
FETCH_DEBOUNCE_MS, so the body scheduled by a trigger runs exactly when no
later trigger arrives before that deadline. -/
def debouncedRunCount : List Nat → Nat
  | [] => 0
  | [_] => 1
  | t :: t2 :: rest =>
      (if t2 < t + FETCH_DEBOUNCE_MS then 0 else 1)
        + debouncedRunCount (t2 :: rest)

/-- Staked-miner resolution of useMealStatuses.fetchStakedMiners
(useMealStatuses.ts lines 28-63): on a successful read the result is adopted
and cached only when it is non-empty; an empty success and a read error both
return the cached lastValidStakedMiners unchanged.  Returns (list returned,
new cache value). -/
def fetchStakedMiners (o : ReadOutcome (List Nat))
    (lastValidStakedMiners : List Nat) : List Nat × List Nat :=
  match o with
  | .ok ids =>
      if 0 < ids.length then (ids, ids)
      else (lastValidStakedMiners, lastValidStakedMiners)
  | .err => (lastValidStakedMiners, lastValidStakedMiners)

/-- The status produced for a miner always carries that miner's id, whatever
the outcomes of its two reads. -/
theorem processMiner_minerId (id : Nat) (rd : MinerReads) (c n : Nat) :
    (processMiner id rd c n).1.minerId = id := by
  rcases rd with ⟨e, ml⟩
  cases e <;> cases ml <;> rfl

/-- A failed meal read leaves the default raw values: timestamp 0 and not
fed, whatever the expedition read returned. -/
theorem processMiner_mealErr (id : Nat) (rd : MinerReads) (c n : Nat)
    (h : rd.meal = ReadOutcome.err) :
    (processMiner id rd c n).1.fedStatus.timestamp = 0
      ∧ (processMiner id rd c n).1.fedStatus.isActive = false := by
  rcases rd with ⟨e, ml⟩
  cases ml with
  | ok m => exact absurd h (by simp)
  | err => cases e <;> exact ⟨rfl, rfl⟩

/-- Claim C10: every StakingData value produced by getStakingData, on both
the success path and the error-fallback path, satisfies
stakedMinerCount = stakedMiners.length: the count is derived from the length
of the returned miner-id list. -/
theorem stakingData_count_invariant (w : String) (o : GetStakingOutcome)
    (now : Nat) :
    (getStakingData w o now).stakedMinerCount
      = (getStakingData w o now).stakedMiners.length := by
  cases o <;> rfl

/-- Claim C7: the reward estimate equals
baseRewards + gemsPerSecond * minerCount * elapsedSeconds; concretely, with
base 100, rate 1/100, five miners and 100 elapsed seconds the estimate is
105, and with zero miners the estimate is pinned at the base amount. -/
theorem accrual_extrapolation (B r T now : ℚ) (n : Nat) :
    estimateCurrentRewards B r n now T = B + r * n * ((now - T) / 1000)
      ∧ estimateCurrentRewards B r 0 now T = B
      ∧ estimateCurrentRewards 100 (1 / 100) 5 (T + 100000) T = 105 := by
  refine ⟨?_, ?_, ?_⟩
  · rcases Nat.eq_zero_or_pos n with h | h
    · subst h
      simp [estimateCurrentRewards]
    · have hn : ¬ n = 0 := by omega
      simp only [estimateCurrentRewards, if_neg hn]
  · simp [estimateCurrentRewards]
  · simp only [estimateCurrentRewards]
    norm_num

/-- Claim C1 (code bug, evaluated at the failing input): a cycle whose
staked-miner read throws resolves its miner list through the closure-frozen
empty cache, so even with live cache [3, 7] and a prior non-empty status
list the still-current cycle commits empty statuses, contrary to the cache
fallback the comment at part_002 line 196 intends; getStakingData likewise
turns any read error into an empty miner list and zeroed reward data. -/
theorem failed_read_regresses_to_empty :
    (resolveStakedMinersFrozen ReadOutcome.err [3, 7]).1 = []
      ∧ (resolveStakedMinersFrozen ReadOutcome.err [3, 7]).1 ≠ [3, 7]
      ∧ (commitCycle 5
            (processCycle (resolveStakedMinersFrozen ReadOutcome.err [3, 7]).1
              (fun _ => ⟨ReadOutcome.err, ReadOutcome.err⟩) 21600 1000)
            (resolveStakedMinersFrozen ReadOutcome.err [3, 7]).1 1000
            ⟨5, [⟨3, false, 0, 0, false, true, ⟨2, 500, true, 22100⟩⟩], true,
              none, true, [3, 7], 0, true⟩).statuses = []
      ∧ (getStakingData "0xabc" GetStakingOutcome.err 1000).stakedMiners = []
      ∧ (getStakingData "0xabc" GetStakingOutcome.err 1000).pendingRewards
          = 0 :=
  ⟨rfl, by decide, rfl, rfl, rfl⟩

/-- Claim C5 counterexample: with zero entities the aggregates return the
plain boolean false, the same value they return on a non-empty set whose
single miner is ineligible and unfed, and the stubbed useFeedingStatus hook
returns the plain boolean true; neither reports a dedicated no-entities
state distinguishable from both booleans. -/
theorem empty_aggregates_not_distinct :
    allMinersEligible [] = false
      ∧ allMinersFed [] = false
      ∧ allMinersEligible
          [(processMiner 1 ⟨ReadOutcome.err, ReadOutcome.err⟩ 100 0).1] = false
      ∧ allMinersFed
          [(processMiner 1 ⟨ReadOutcome.err, ReadOutcome.err⟩ 100 0).1] = false
      ∧ useFeedingStatus.allMinersFed = true := by
  decide

/-- Claim C5 (amended): with zero entities, allMinersEligible and
allMinersFed in useExpeditions both silently return false, and the stubbed
useFeedingStatus hook reports allMinersFed = true with an empty status list;
there is no dedicated no-entities state. -/
theorem empty_aggregates_default_false (ss : List ExpeditionStatus)
    (h : ss.length = 0) :
    allMinersEligible ss = false ∧ allMinersFed ss = false
      ∧ useFeedingStatus.allMinersFed = true
      ∧ useFeedingStatus.statuses = [] := by
  refine ⟨?_, ?_, rfl, rfl⟩ <;> simp [allMinersEligible, allMinersFed, h]

/-- Witness for the amended claim C5 at the empty status list. -/
theorem empty_aggregates_default_false_witness :
    allMinersEligible [] = false :=
  (empty_aggregates_default_false [] rfl).1

/-- Claim C8 counterexample: in useMealStatuses.fetchStakedMiners a
successful read returning the empty list is not committed; with cached list
[7] the hook keeps returning [7] and leaves the cache at [7]. -/
theorem empty_success_not_committed :
    (fetchStakedMiners (ReadOutcome.ok []) [7]).1 = [7]
      ∧ (fetchStakedMiners (ReadOutcome.ok []) [7]).2 = [7]
      ∧ (fetchStakedMiners (ReadOutcome.ok []) [7]).1 ≠ [] := by
  decide

/-- Claim C8 (amended): in useExpeditions a successful entity-set read is
used for the cycle even when empty, and an empty success leaves the live
cache at its prior value; but a read error is equally converted to the empty
list, because the error path reads the closure-frozen initial cache; in
useMealStatuses both an empty success and a read error are discarded in
favor of the cached lastValidStakedMiners. -/
theorem empty_and_error_read_semantics (ids lv live : List Nat) :
    (resolveStakedMinersFrozen (ReadOutcome.ok ids) live).1 = ids
      ∧ (resolveStakedMinersFrozen (ReadOutcome.ok []) live).2 = live
      ∧ (resolveStakedMinersFrozen ReadOutcome.err live).1 = []
      ∧ fetchStakedMiners (ReadOutcome.ok []) lv = (lv, lv)
      ∧ fetchStakedMiners ReadOutcome.err lv = (lv, lv) :=
  ⟨rfl, rfl, rfl, rfl, rfl⟩

/-- Claim C2: a cycle whose token is stale (some later cycle with a larger
token has already started, so the global counter is at least that larger
token) discards its results: neither its success-path commit nor its
error-path completion mutates statuses, initialized, error or loading. -/
theorem stale_cycle_never_overwrites (t1 t2 : Nat) (st : SyncState)
    (ns : List ExpeditionStatus) (sm : List Nat) (now : Nat) (e : String)
    (h12 : t1 < t2) (h2 : t2 ≤ st.counter) :
    (commitCycle t1 ns sm now st).statuses = st.statuses
      ∧ (commitCycle t1 ns sm now st).initialized = st.initialized
      ∧ (commitCycle t1 ns sm now st).error = st.error
      ∧ (commitCycle t1 ns sm now st).loading = st.loading
      ∧ (commitCycle t1 ns sm now st).lastValidStakedMiners
          = st.lastValidStakedMiners
      ∧ (failCycle t1 e st).error = st.error
      ∧ (failCycle t1 e st).loading = st.loading
      ∧ (failCycle t1 e st).statuses = st.statuses := by
  have hne : ¬ t1 = st.counter := by omega
  simp [commitCycle, failCycle, hne]

/-- Witness for claim C2: a cycle holding token 1, superseded by the cycle
holding token 2, leaves the committed statuses untouched. -/
theorem stale_cycle_never_overwrites_witness :
    (commitCycle 1 [] [5] 0 ⟨2, [], true, none, false, [], 0, true⟩).statuses
      = [] :=
  (stale_cycle_never_overwrites 1 2 ⟨2, [], true, none, false, [], 0, true⟩
    [] [5] 0 "boom" (by decide) (by decide)).1

/-- Claim C3: with a wallet connected, a non-forced trigger inside the
cooldown window performs no read; a forced trigger performs a read exactly
when no fetch is in flight; any trigger arriving while a fetch is in flight
is dropped regardless of the force flag; and manualSync performs no read
inside its own sync interval. -/
theorem cooldown_and_force_semantics (walletConnected inProgress : Bool)
    (now lastFetchTime lastSync : Nat) (hw : walletConnected = true) :
    (now - lastFetchTime < REFETCH_COOLDOWN_MS →
        shouldStartFetch false walletConnected inProgress now lastFetchTime
          = false)
      ∧ (inProgress = false →
          shouldStartFetch true walletConnected inProgress now lastFetchTime
            = true)
      ∧ (inProgress = true → ∀ force,
          shouldStartFetch force walletConnected inProgress now lastFetchTime
            = false)
      ∧ (now - lastSync < MIN_SYNC_INTERVAL →
          manualSyncRuns now lastSync = false) := by
  subst hw
  refine ⟨fun h => ?_, fun h => ?_, fun h force => ?_, fun h => ?_⟩
  · cases inProgress <;> simp [shouldStartFetch, h]
  · subst h
    rfl
  · subst h
    rfl
  · simp only [manualSyncRuns, decide_eq_false_iff_not]
    omega

/-- Witness for claim C3: with the wallet connected, no fetch in flight and
only 1000 ms elapsed since the last fetch, a non-forced trigger is skipped. -/
theorem cooldown_and_force_semantics_witness :
    shouldStartFetch false true false 1000 0 = false :=
  (cooldown_and_force_semantics true false 1000 0 0 rfl).1 (by decide)

/-- Claim C4 counterexample: a miner whose previous successful read recorded
meal timestamp 5 receives the default raw values (timestamp 0, not fed) when
its meal read fails in the next cycle, instead of retaining the last known
raw status. -/
theorem failed_read_resets_rawStatus :
    ((processMiner 1 ⟨ReadOutcome.ok ⟨0, 0, false⟩, ReadOutcome.ok ⟨2, 5⟩⟩
        100 10).1).fedStatus.timestamp = 5
      ∧ ((processMiner 1 ⟨ReadOutcome.ok ⟨0, 0, false⟩, ReadOutcome.err⟩
          100 10).1).fedStatus.timestamp = 0
      ∧ ((processMiner 1 ⟨ReadOutcome.ok ⟨0, 0, false⟩, ReadOutcome.err⟩
          100 10).1).fedStatus.isActive = false := by
  decide

/-- Claim C4 (amended): during the per-entity loop a single entity's read
failure never aborts the remaining entities (every miner of the batch yields
a status, and the statuses of the other miners are unaffected by one miner's
read outcomes), and the failed entity stays in the produced result set with
default raw values (timestamp 0, not fed) rather than its last known raw
status; set membership itself changes only through the entity-set read. -/
theorem per_miner_failure_isolated (miners : List Nat)
    (r r2 : Nat → MinerReads) (c n m : Nat)
    (hagree : ∀ id, id ≠ m → r id = r2 id) :
    (processCycle miners r c n).map (fun s => s.minerId) = miners
      ∧ (processCycle miners r c n).filter (fun s => s.minerId != m)
          = (processCycle miners r2 c n).filter (fun s => s.minerId != m)
      ∧ (∀ id, (r id).meal = ReadOutcome.err →
          ∀ s, s ∈ processCycle miners r c n → s.minerId = id →
            s.fedStatus.timestamp = 0 ∧ s.fedStatus.isActive = false) := by
  refine ⟨?_, ?_, ?_⟩
  · induction miners with
    | nil => rfl
    | cons a rest ih =>
        simp only [processCycle, List.map_cons, processMiner_minerId,
          List.cons.injEq, true_and] at ih ⊢
        exact ih
  · induction miners with
    | nil => rfl
    | cons a rest ih =>
        by_cases ha : a = m
        · subst ha
          simp only [processCycle, List.map_cons, List.filter_cons,
            processMiner_minerId, bne_self_eq_false] at ih ⊢
          exact ih
        · have hr : r a = r2 a := hagree a ha
          simp only [processCycle, List.map_cons, List.filter_cons,
            processMiner_minerId, hr] at ih ⊢
          split <;> simp [ih]
  · intro id hid s hs hsid
    rcases List.mem_map.mp hs with ⟨i, hi, hsi⟩
    have : i = id := by
      rw [← hsid, ← hsi, processMiner_minerId]
    subst this
    rw [← hsi]
    exact processMiner_mealErr i (r i) c n hid

/-- Witness for the amended claim C4: a batch of two miners whose reads all
fail still yields a status for each miner. -/
theorem per_miner_failure_isolated_witness :
    (processCycle [1, 2] (fun _ => ⟨ReadOutcome.err, ReadOutcome.err⟩)
        100 10).map (fun s => s.minerId) = [1, 2] :=
  (per_miner_failure_isolated [1, 2]
    (fun _ => ⟨ReadOutcome.err, ReadOutcome.err⟩)
    (fun _ => ⟨ReadOutcome.err, ReadOutcome.err⟩) 100 10 1
    (fun _ _ => rfl)).1

/-- Claim C6: for an entity whose meal status is successfully read, the
reconciler computes the contract-exact eligibility as meal timestamp > 0 and
the display eligibility as meal timestamp + cooldown > now, emits a
mismatch diagnostic exactly when the two disagree, and that diagnostic
carries both boolean values, the raw timestamps and the entity id; the fed
status committed for the entity is the contract-exact value. -/
theorem eligibility_mismatch_observable (id : Nat)
    (e : ReadOutcome ExpeditionData) (m : MealInfo) (cooldown now : Nat) :
    (((processMiner id ⟨e, ReadOutcome.ok m⟩ cooldown now).2).isSome
        ↔ decide (0 < m.timestamp) ≠ decide (now < m.timestamp + cooldown))
      ∧ (∀ d, (processMiner id ⟨e, ReadOutcome.ok m⟩ cooldown now).2 = some d →
          d.minerId = id
            ∧ d.contractEligible = decide (0 < m.timestamp)
            ∧ d.uiEligible = decide (now < m.timestamp + cooldown)
            ∧ d.mealTimestamp = m.timestamp
            ∧ d.expiryTime = m.timestamp + cooldown
            ∧ d.currentTime = now)
      ∧ (processMiner id ⟨e, ReadOutcome.ok m⟩ cooldown now).1.fedStatus.isActive
          = decide (0 < m.timestamp) := by
  have key : (processMiner id ⟨e, ReadOutcome.ok m⟩ cooldown now).2
      = (if decide (0 < m.timestamp) != decide (now < m.timestamp + cooldown)
         then some { minerId := id,
                     contractEligible := decide (0 < m.timestamp),
                     uiEligible := decide (now < m.timestamp + cooldown),
                     mealTimestamp := m.timestamp,
                     expiryTime := m.timestamp + cooldown,
                     currentTime := now }
         else none) := by
    cases e <;> rfl
  have key2 : (processMiner id ⟨e, ReadOutcome.ok m⟩ cooldown now).1.fedStatus.isActive
      = decide (0 < m.timestamp) := by
    cases e <;> rfl
  refine ⟨?_, ?_, key2⟩
  · rw [key]
    by_cases h : decide (0 < m.timestamp) = decide (now < m.timestamp + cooldown)
    · simp [h]
    · simp [h]
  · intro d hd
    rw [key] at hd
    by_cases h :
        (decide (0 < m.timestamp) != decide (now < m.timestamp + cooldown))
          = true
    · rw [if_pos h] at hd
      injection hd with hd2
      subst hd2
      exact ⟨rfl, rfl, rfl, rfl, rfl, rfl⟩
    · rw [if_neg h] at hd
      exact Option.noConfusion hd

/-- Witness for claim C6: miner 1 with meal timestamp 5, cooldown 10 and
current time 100 is contract-eligible but display-ineligible, and the
mismatch diagnostic is emitted. -/
theorem eligibility_mismatch_observable_witness :
    ((processMiner 1 ⟨ReadOutcome.err, ReadOutcome.ok ⟨2, 5⟩⟩ 10 100).2).isSome
      = true :=
  ((eligibility_mismatch_observable 1 ReadOutcome.err ⟨2, 5⟩ 10 100).1).mpr
    (by decide)

/-- Claim C9: a non-empty ascending burst of triggers, each arriving strictly
within the debounce window of the previous one, executes exactly one
debounced fetch body: each new trigger cancels the previously scheduled run
and only the last scheduled run fires. -/
theorem debounce_coalescing :
    ∀ ts : List Nat, ts ≠ [] → burstWithinDebounce ts = true →
      debouncedRunCount ts = 1
  | [], hne, _ => absurd rfl hne
  | [_], _, _ => rfl
  | t :: t2 :: rest, _, hb => by
      simp only [burstWithinDebounce, Bool.and_eq_true, decide_eq_true_eq]
        at hb
      have ih := debounce_coalescing (t2 :: rest) (by simp) hb.2
      simp [debouncedRunCount, hb.1, ih]

/-- Witness for claim C9: three triggers at 0, 100 and 200 ms, each within
300 ms of the previous, run the fetch body exactly once. -/
theorem debounce_coalescing_witness :
    debouncedRunCount [0, 100, 200] = 1 :=
  debounce_coalescing [0, 100, 200] (by decide) (by decide)

end MiningMaster
